import Mathlib

/-!
Verification of the chunked CSV splitter (src/splitter.py).

The single source file defines `split_csv(input_file, output_dir, chunk_size)`.
We embed it shallowly: the surrounding filesystem and clock are an explicit
`World`, the pandas reading contract is a `ReadResult`, Python exceptions are
the inductive `PyErr`, and the function becomes a pure `split_csv` from a
`World` and the three arguments to an `Outcome` (final result value, whether
the output directory exists afterwards, and the list of files written, in
write order).
-/

namespace CsvSplitter

/-- A data row: an ordered sequence of field values, as parsed by pandas. -/
abbrev Row := List String

/-- The Python exceptions the script can raise or encounter, with their
message (the string `str(e)` would yield).  `parserError` is the raw
low-level `pd.errors.ParserError`; the script itself never lets it escape. -/
inductive PyErr where
  | fileNotFoundError (msg : String)
  | valueError (msg : String)
  | permissionError (msg : String)
  | parserError (msg : String)
  | exception (msg : String)
  deriving DecidableEq, Repr

/-- The message carried by an exception (Python `str(e)`). -/
def PyErr.msg : PyErr → String
  | .fileNotFoundError m => m
  | .valueError m => m
  | .permissionError m => m
  | .parserError m => m
  | .exception m => m

/-- Contract of `pd.read_csv(input_file, chunksize=chunk_size)` together with
iterating the returned reader: either the source parses into a header row and
a list of data rows, or iteration raises `pd.errors.ParserError`, or some
other exception is raised during reading. -/
inductive ReadResult where
  | ok (header : Row) (rows : List Row)
  | parserError (msg : String)
  | otherError (e : PyErr)
  deriving DecidableEq, Repr

/-- A wall-clock timestamp, second resolution, as used by
`datetime.now().strftime("%Y-%m-%d--%H-%M-%S")`. -/
structure Timestamp where
  year : Nat
  month : Nat
  day : Nat
  hour : Nat
  minute : Nat
  second : Nat
  deriving DecidableEq, Repr

/-- The environment of one invocation of `split_csv`:
* `inputExists`: value of `os.path.exists(input_file)`;
* `outputDirExists`: value of `os.path.exists(output_dir)` at entry;
* `mkdirOk`: whether `os.makedirs(output_dir)` would succeed
  (`false` models it raising `PermissionError`);
* `readResult`: what `pd.read_csv(..., chunksize=...)` plus iteration yields;
* `writeFailAt`: if `some (j, e)`, the write of chunk index `j` (0-based)
  raises the exception `e`; `none` means every write succeeds;
* `clock`: the timestamp `datetime.now()` returns when chunk `i` is written
  (the call sits inside the loop, so it is sampled once per file). -/
structure World where
  inputExists : Bool
  outputDirExists : Bool
  mkdirOk : Bool
  readResult : ReadResult
  writeFailAt : Option (Nat × PyErr)
  clock : Nat → Timestamp

/-- The same world with a different clock (used to state that data placement
does not depend on wall-clock time). -/
def World.withClock (w : World) (c : Nat → Timestamp) : World :=
  { w with clock := c }

/-- One output file as written by `chunk.to_csv(output_file, index=False)`:
its full path, the timestamp and 1-based index embedded in its name, and its
content (header line followed by the rows of the batch). -/
structure OutFile where
  name : String
  timestamp : Timestamp
  index : Nat
  header : Row
  rows : List Row
  deriving DecidableEq, Repr

/-- Return value of the Python function: either the file count or a raised
exception. -/
inductive PyResult where
  | ok (count : Nat)
  | error (e : PyErr)
  deriving DecidableEq, Repr

/-- Everything observable about one run: the returned value or exception,
whether the output directory exists when the run ends, and the files written
(in the order they were written). -/
structure Outcome where
  result : PyResult
  dirExistsAfter : Bool
  files : List OutFile
  deriving Repr

/-- Decimal digits of a positive number, most significant first; `fuel`
bounds the recursion and any `fuel ≥ n` (with `n ≥ 1`) gives all digits. -/
def natDigitsAux : Nat → Nat → List Char
  | 0, _ => []
  | _ + 1, 0 => []
  | fuel + 1, n + 1 => natDigitsAux fuel ((n + 1) / 10) ++ [Nat.digitChar ((n + 1) % 10)]

/-- Decimal representation of a `Nat`, as Python `str(n)` produces for a
non-negative int. -/
def natRepr (n : Nat) : List Char :=
  if n = 0 then ['0'] else natDigitsAux n n

/-- Python format `f"{n:0wd}"` for `n ≥ 0`: decimal digits, left-padded with
zeros to at least width `w`. -/
def zfill (w n : Nat) : String :=
  String.mk (List.replicate (w - (natRepr n).length) '0' ++ natRepr n)

/-- `strftime("%Y-%m-%d--%H-%M-%S")`: every component zero-padded (the year
to four digits, the rest to two). -/
def fmtTimestamp (t : Timestamp) : String :=
  zfill 4 t.year ++ "-" ++ zfill 2 t.month ++ "-" ++ zfill 2 t.day ++ "--"
    ++ zfill 2 t.hour ++ "-" ++ zfill 2 t.minute ++ "-" ++ zfill 2 t.second

/-- Python `b.startswith("/")`. -/
def startsWithSlash (s : String) : Bool :=
  match s.data with
  | [] => false
  | c :: _ => decide (c = '/')

/-- Python `a.endswith("/")`. -/
def endsWithSlash (s : String) : Bool :=
  match s.data.getLast? with
  | some c => decide (c = '/')
  | none => false

/-- POSIX `os.path.join(a, b)` for a single component: an absolute second
component replaces the first, an empty or slash-terminated first component is
concatenated directly, otherwise a separator is inserted. -/
def pathJoin (a b : String) : String :=
  if startsWithSlash b then b
  else if a = "" then b
  else if endsWithSlash a then a ++ b
  else a ++ "/" ++ b

/-- The partition pandas produces for `chunksize = k`: successive groups of
`k` data rows, the last possibly smaller.  `fuel` bounds the recursion;
`chunkList` supplies `l.length`, which suffices for every `k ≥ 1`. -/
def chunkAux (k : Nat) : Nat → List Row → List (List Row)
  | 0, _ => []
  | _ + 1, [] => []
  | fuel + 1, x :: xs => (x :: xs.take (k - 1)) :: chunkAux k fuel (xs.drop (k - 1))

/-- The batches of data rows, in source order: batch `i` holds rows
`[i*k, min ((i+1)*k, length))` of the source. -/
def chunkList (k : Nat) (l : List Row) : List (List Row) :=
  chunkAux k l.length l

/-- The file written for chunk index `i` (0-based): name
`os.path.join(output_dir, f"{timestamp}--{i+1:02d}.csv")`, content header
plus the rows of the batch. -/
def mkOutFile (output_dir : String) (ts : Timestamp) (i : Nat) (header : Row)
    (rows : List Row) : OutFile :=
  { name := pathJoin output_dir (fmtTimestamp ts ++ "--" ++ zfill 2 (i + 1) ++ ".csv")
    timestamp := ts
    index := i + 1
    header := header
    rows := rows }

/-- The `for i, chunk in enumerate(chunk_iterator)` loop body, started at
index `i`: writes one file per chunk, unless `failAt` says the write of some
chunk raises — then the loop stops with that exception and the files already
written remain.  Returns the files written and the raised exception, if any. -/
def writeChunks (output_dir : String) (clock : Nat → Timestamp)
    (failAt : Option (Nat × PyErr)) (header : Row) :
    Nat → List (List Row) → List OutFile × Option PyErr
  | _, [] => ([], none)
  | i, c :: rest =>
    match failAt with
    | some (j, e) =>
      if j = i then ([], some e)
      else
        let out := writeChunks output_dir clock failAt header (i + 1) rest
        (mkOutFile output_dir (clock i) i header c :: out.1, out.2)
    | none =>
      let out := writeChunks output_dir clock failAt header (i + 1) rest
      (mkOutFile output_dir (clock i) i header c :: out.1, out.2)

/-- The value the chunk loop leaves behind: the returned file count when no
write raised, or the wrapped generic `Exception` of the `except Exception`
handler when one did. -/
def loopResult (p : List OutFile × Option PyErr) : PyResult :=
  match p.2 with
  | none => .ok p.1.length
  | some e => .error (.exception ("An error occurred while splitting the CSV file: " ++ e.msg))

/-- Shallow embedding of `split_csv(input_file, output_dir, chunk_size)`
(src/splitter.py, lines 31-101), following the source line by line:
1. `if not os.path.exists(input_file): raise FileNotFoundError(...)`;
2. `if chunk_size <= 0: raise ValueError("Chunk size must be a positive integer")`;
3. `if not os.path.exists(output_dir): os.makedirs(output_dir)` inside
   `try/except PermissionError`, re-raised with the directory message;
4. the chunked read loop inside `try`: `pd.errors.ParserError` is re-raised
   as a `ValueError` with a fixed message, any other exception `e` (including
   one raised by a failing `chunk.to_csv`) is re-raised as
   `Exception("An error occurred while splitting the CSV file: " + str(e))`;
5. on success the chunk count is returned. -/
def split_csv (w : World) (input_file output_dir : String) (chunk_size : Int) :
    Outcome :=
  if w.inputExists = false then
    { result := .error (.fileNotFoundError ("Input file not found: " ++ input_file))
      dirExistsAfter := w.outputDirExists
      files := [] }
  else if chunk_size ≤ 0 then
    { result := .error (.valueError "Chunk size must be a positive integer")
      dirExistsAfter := w.outputDirExists
      files := [] }
  else if w.outputDirExists = false ∧ w.mkdirOk = false then
    { result := .error (.permissionError ("Permission denied when creating directory: " ++ output_dir))
      dirExistsAfter := false
      files := [] }
  else
    match w.readResult with
    | .parserError _ =>
      { result := .error (.valueError "Error parsing CSV file. Please check if it's a valid CSV format.")
        dirExistsAfter := true
        files := [] }
    | .otherError e =>
      { result := .error (.exception ("An error occurred while splitting the CSV file: " ++ e.msg))
        dirExistsAfter := true
        files := [] }
    | .ok header rows =>
      { result := loopResult (writeChunks output_dir w.clock w.writeFailAt header 0
          (chunkList chunk_size.toNat rows))
        dirExistsAfter := true
        files := (writeChunks output_dir w.clock w.writeFailAt header 0
          (chunkList chunk_size.toNat rows)).1 }

/-- The batch index, header and rows of a file — everything about it except
the wall-clock timestamp baked into its name. -/
def placement (f : OutFile) : Nat × Row × List Row := (f.index, f.header, f.rows)

/-- The files a fully successful write loop produces from the given chunks,
starting at chunk index `i`. -/
def filesFor (d : String) (c : Nat → Timestamp) (h : Row) :
    Nat → List (List Row) → List OutFile
  | _, [] => []
  | i, cj :: rest => mkOutFile d (c i) i h cj :: filesFor d c h (i + 1) rest

theorem writeChunks_none_eq (d : String) (c : Nat → Timestamp) (h : Row) :
    ∀ (chunks : List (List Row)) (i : Nat),
      writeChunks d c none h i chunks = (filesFor d c h i chunks, none) := by
  intro chunks
  induction chunks with
  | nil => intro i; rfl
  | cons cj rest ih =>
    intro i
    simp only [writeChunks, filesFor, ih]

theorem filesFor_rows (d : String) (c : Nat → Timestamp) (h : Row) :
    ∀ (chunks : List (List Row)) (i : Nat),
      (filesFor d c h i chunks).map OutFile.rows = chunks := by
  intro chunks
  induction chunks with
  | nil => intro i; rfl
  | cons cj rest ih =>
    intro i
    simp only [filesFor, List.map_cons, ih]
    rfl

theorem filesFor_length (d : String) (c : Nat → Timestamp) (h : Row)
    (chunks : List (List Row)) (i : Nat) :
    (filesFor d c h i chunks).length = chunks.length := by
  have := congrArg List.length (filesFor_rows d c h chunks i)
  simpa using this

theorem filesFor_header (d : String) (c : Nat → Timestamp) (h : Row) :
    ∀ (chunks : List (List Row)) (i : Nat) (f : OutFile),
      f ∈ filesFor d c h i chunks → f.header = h := by
  intro chunks
  induction chunks with
  | nil => intro i f hf; simp [filesFor] at hf
  | cons cj rest ih =>
    intro i f hf
    simp only [filesFor, List.mem_cons] at hf
    rcases hf with hf | hf
    · subst hf; rfl
    · exact ih (i + 1) f hf

theorem filesFor_get (d : String) (c : Nat → Timestamp) (h : Row) :
    ∀ (chunks : List (List Row)) (i j : Nat)
      (hj : j < (filesFor d c h i chunks).length) (hj2 : j < chunks.length),
      (filesFor d c h i chunks).get ⟨j, hj⟩ =
        mkOutFile d (c (i + j)) (i + j) h (chunks.get ⟨j, hj2⟩) := by
  intro chunks
  induction chunks with
  | nil => intro i j hj hj2; simp at hj2
  | cons cj rest ih =>
    intro i j hj hj2
    cases j with
    | zero => simp [filesFor]
    | succ m =>
      have hj2m : m < rest.length := by simpa using hj2
      have hjm : m < (filesFor d c h (i + 1) rest).length := by
        rw [filesFor_length]; exact hj2m
      simp only [filesFor, List.get_cons_succ]
      rw [ih (i + 1) m hjm hj2m]
      have : i + 1 + m = i + (m + 1) := by omega
      rw [this]

theorem writeChunks_fail_eq (d : String) (c : Nat → Timestamp) (h : Row)
    (e : PyErr) :
    ∀ (chunks : List (List Row)) (i j : Nat), i ≤ j → j - i < chunks.length →
      writeChunks d c (some (j, e)) h i chunks =
        (filesFor d c h i (chunks.take (j - i)), some e) := by
  intro chunks
  induction chunks with
  | nil => intro i j _ hji; simp at hji
  | cons cj rest ih =>
    intro i j hij hji
    by_cases hje : j = i
    · subst hje
      simp [writeChunks, filesFor]
    · have hlt : i < j := lt_of_le_of_ne hij (fun hh => hje hh.symm)
      have hsub : j - i = (j - (i + 1)) + 1 := by omega
      simp only [writeChunks, if_neg hje]
      rw [ih (i + 1) j (by omega) (by simp at hji ⊢; omega)]
      rw [hsub, List.take_succ_cons]
      simp only [filesFor]

theorem writeChunks_placement (d : String) (c₁ c₂ : Nat → Timestamp) (h : Row)
    (fa : Option (Nat × PyErr)) :
    ∀ (chunks : List (List Row)) (i : Nat),
      (writeChunks d c₁ fa h i chunks).1.map placement =
        (writeChunks d c₂ fa h i chunks).1.map placement ∧
      (writeChunks d c₁ fa h i chunks).2 = (writeChunks d c₂ fa h i chunks).2 := by
  intro chunks
  induction chunks with
  | nil => intro i; exact ⟨rfl, rfl⟩
  | cons cj rest ih =>
    intro i
    match fa with
    | none =>
      have h1 := (ih (i + 1)).1
      have h2 := (ih (i + 1)).2
      simp only [writeChunks, List.map_cons, h1, h2]
      exact ⟨by simp [placement, mkOutFile], trivial⟩
    | some (j, e) =>
      by_cases hje : j = i
      · simp [writeChunks, if_pos hje]
      · have h1 := (ih (i + 1)).1
        have h2 := (ih (i + 1)).2
        simp only [writeChunks, if_neg hje, List.map_cons, h1, h2]
        exact ⟨by simp [placement, mkOutFile], trivial⟩

theorem mem_writeChunks (d : String) (c : Nat → Timestamp) (h : Row)
    (fa : Option (Nat × PyErr)) :
    ∀ (chunks : List (List Row)) (i : Nat) (f : OutFile),
      f ∈ (writeChunks d c fa h i chunks).1 →
      ∃ j rows, f = mkOutFile d (c j) j h rows := by
  intro chunks
  induction chunks with
  | nil =>
    intro i f hf
    match fa with
    | none => simp [writeChunks] at hf
    | some (j, e) => simp [writeChunks] at hf
  | cons cj rest ih =>
    intro i f hf
    match fa with
    | none =>
      simp only [writeChunks, List.mem_cons] at hf
      rcases hf with hf | hf
      · exact ⟨i, cj, hf⟩
      · exact ih (i + 1) f hf
    | some (j, e) =>
      by_cases hje : j = i
      · simp only [writeChunks, if_pos hje] at hf
        simp at hf
      · simp only [writeChunks, if_neg hje, List.mem_cons] at hf
        rcases hf with hf | hf
        · exact ⟨i, cj, hf⟩
        · exact ih (i + 1) f hf

theorem chunkAux_flatten (k : Nat) (_hk : 0 < k) :
    ∀ (fuel : Nat) (l : List Row), l.length ≤ fuel →
      (chunkAux k fuel l).flatten = l := by
  intro fuel
  induction fuel with
  | zero =>
    intro l hl
    have h0 : l = [] := List.eq_nil_of_length_eq_zero (Nat.le_zero.mp hl)
    subst h0; rfl
  | succ n ih =>
    intro l hl
    cases l with
    | nil => rfl
    | cons x xs =>
      simp only [chunkAux, List.flatten_cons]
      rw [ih (xs.drop (k - 1)) (by simp only [List.length_drop]; simp at hl; omega)]
      simp [List.take_append_drop]

theorem chunkList_flatten (k : Nat) (hk : 0 < k) (l : List Row) :
    (chunkList k l).flatten = l :=
  chunkAux_flatten k hk l.length l (le_refl _)

theorem digitChar_ne_slash : ∀ d : Nat, d < 16 → Nat.digitChar d ≠ '/' := by
  decide

theorem natDigitsAux_ne_slash :
    ∀ (fuel n : Nat), ∀ c ∈ natDigitsAux fuel n, c ≠ '/' := by
  intro fuel
  induction fuel with
  | zero => intro n c hc; simp [natDigitsAux] at hc
  | succ m ih =>
    intro n c hc
    cases n with
    | zero => simp [natDigitsAux] at hc
    | succ p =>
      simp only [natDigitsAux, List.mem_append, List.mem_singleton] at hc
      rcases hc with hc | hc
      · exact ih _ _ hc
      · subst hc
        exact digitChar_ne_slash _
          (Nat.lt_of_lt_of_le (Nat.mod_lt _ (by omega)) (by omega))

theorem natRepr_ne_slash (n : Nat) : ∀ c ∈ natRepr n, c ≠ '/' := by
  intro c hc
  unfold natRepr at hc
  by_cases h0 : n = 0
  · rw [if_pos h0] at hc
    simp at hc
    subst hc
    decide
  · rw [if_neg h0] at hc
    exact natDigitsAux_ne_slash n n c hc

theorem natRepr_ne_nil (n : Nat) : natRepr n ≠ [] := by
  unfold natRepr
  by_cases h0 : n = 0
  · rw [if_pos h0]; simp
  · rw [if_neg h0]
    cases n with
    | zero => exact absurd rfl h0
    | succ p => simp [natDigitsAux]

theorem startsWithSlash_zfill_append (w n : Nat) (t : String) :
    startsWithSlash (zfill w n ++ t) = false := by
  have hdata : (zfill w n ++ t).data =
      (List.replicate (w - (natRepr n).length) '0' ++ natRepr n) ++ t.data := by
    simp [zfill]
  obtain ⟨c, cs, hL⟩ : ∃ c cs,
      List.replicate (w - (natRepr n).length) '0' ++ natRepr n = c :: cs := by
    cases hcase : List.replicate (w - (natRepr n).length) '0' ++ natRepr n with
    | nil =>
      rcases List.append_eq_nil.mp hcase with ⟨-, h2⟩
      exact absurd h2 (natRepr_ne_nil n)
    | cons c cs => exact ⟨c, cs, rfl⟩
  have hc : c ∈ List.replicate (w - (natRepr n).length) '0' ++ natRepr n := by
    rw [hL]; exact List.mem_cons_self c cs
  have hcne : c ≠ '/' := by
    rcases List.mem_append.mp hc with hmem | hmem
    · have := List.eq_of_mem_replicate hmem
      subst this; decide
    · exact natRepr_ne_slash n c hmem
  unfold startsWithSlash
  rw [hdata, hL]
  simp only [List.cons_append]
  exact decide_eq_false hcne

theorem startsWithSlash_filename (ts : Timestamp) (k : Nat) :
    startsWithSlash (fmtTimestamp ts ++ "--" ++ zfill 2 k ++ ".csv") = false := by
  unfold fmtTimestamp
  simp only [String.append_assoc]
  exact startsWithSlash_zfill_append 4 ts.year _

theorem pathJoin_eq_concat (a b : String) (hb : startsWithSlash b = false)
    (ha1 : a ≠ "") (ha2 : endsWithSlash a = false) :
    pathJoin a b = a ++ "/" ++ b := by
  unfold pathJoin
  rw [hb, if_neg (by simp), if_neg ha1, ha2, if_neg (by simp)]

theorem chunkAux_length (k : Nat) (hk : 0 < k) :
    ∀ (fuel : Nat) (l : List Row), l.length ≤ fuel →
      (chunkAux k fuel l).length = (l.length + k - 1) / k := by
  intro fuel
  induction fuel with
  | zero =>
    intro l hl
    have h0 : l = [] := List.eq_nil_of_length_eq_zero (Nat.le_zero.mp hl)
    subst h0
    simp [chunkAux]
    rw [Nat.div_eq_of_lt (by omega)]
  | succ n ih =>
    intro l hl
    cases l with
    | nil =>
      simp [chunkAux]
      rw [Nat.div_eq_of_lt (by omega)]
    | cons x xs =>
      simp only [chunkAux, List.length_cons]
      rw [ih (xs.drop (k - 1)) (by simp only [List.length_drop]; simp at hl; omega)]
      simp only [List.length_drop]
      rcases le_or_lt (k - 1) xs.length with hcase | hcase
      · have e1 : xs.length - (k - 1) + k - 1 = xs.length := by omega
        have e2 : xs.length + 1 + k - 1 = xs.length + k := by omega
        rw [e1, e2, Nat.add_div_right _ hk]
      · have e1 : xs.length - (k - 1) = 0 := by omega
        have e2 : xs.length + 1 + k - 1 = xs.length + k := by omega
        rw [e1, e2, Nat.add_div_right _ hk,
          Nat.div_eq_of_lt (show 0 + k - 1 < k by omega),
          Nat.div_eq_of_lt (show xs.length < k by omega)]

theorem chunkList_length (k : Nat) (hk : 0 < k) (l : List Row) :
    (chunkList k l).length = (l.length + k - 1) / k :=
  chunkAux_length k hk l.length l (le_refl _)

theorem chunkAux_getElem (k : Nat) (hk : 0 < k) :
    ∀ (fuel : Nat) (l : List Row), l.length ≤ fuel →
      ∀ (i : Nat), i * k < l.length →
        (chunkAux k fuel l)[i]? = some ((l.drop (i * k)).take k) := by
  obtain ⟨m, rfl⟩ : ∃ m, k = m + 1 := ⟨k - 1, by omega⟩
  intro fuel
  induction fuel with
  | zero => intro l hl i hi; simp at hl; subst hl; simp at hi
  | succ n ih =>
    intro l hl i hi
    cases l with
    | nil => simp at hi
    | cons x xs =>
      have hstep : m + 1 - 1 = m := by omega
      cases i with
      | zero =>
        simp only [chunkAux, hstep, List.getElem?_cons_zero, Nat.zero_mul,
          List.drop_zero, List.take_succ_cons]
      | succ j =>
        have harith : (j + 1) * (m + 1) = j * (m + 1) + m + 1 := by ring
        have hi2 : j * (m + 1) < (xs.drop m).length := by
          simp only [List.length_drop]
          simp only [harith, List.length_cons] at hi
          omega
        simp only [chunkAux, hstep, List.getElem?_cons_succ]
        rw [ih (xs.drop m) (by simp only [List.length_drop]; simp at hl; omega) j hi2]
        rw [List.drop_drop, harith, List.drop_succ_cons]
        congr 3
        omega

theorem chunkList_getElem (k : Nat) (hk : 0 < k) (l : List Row)
    (i : Nat) (hi : i * k < l.length) :
    (chunkList k l)[i]? = some ((l.drop (i * k)).take k) :=
  chunkAux_getElem k hk l.length l (le_refl _) i hi

theorem split_csv_success_eq (w : World) (inp out : String) (cs : Int)
    (header : Row) (rows : List Row)
    (h1 : w.inputExists = true) (h2 : 0 < cs)
    (h3 : w.outputDirExists = true ∨ w.mkdirOk = true)
    (h4 : w.readResult = .ok header rows) (h5 : w.writeFailAt = none) :
    split_csv w inp out cs =
      { result := .ok (filesFor out w.clock header 0 (chunkList cs.toNat rows)).length
        dirExistsAfter := true
        files := filesFor out w.clock header 0 (chunkList cs.toNat rows) } := by
  have hc1 : ¬ (w.inputExists = false) := by rw [h1]; simp
  have hc2 : ¬ (cs ≤ 0) := not_le.mpr h2
  have hc3 : ¬ (w.outputDirExists = false ∧ w.mkdirOk = false) := by
    rcases h3 with h | h <;> simp [h]
  unfold split_csv
  rw [if_neg hc1, if_neg hc2, if_neg hc3]
  simp only [h4, h5, writeChunks_none_eq]
  rfl

theorem split_csv_writefail_eq (w : World) (inp out : String) (cs : Int)
    (header : Row) (rows : List Row) (j : Nat) (e : PyErr)
    (h1 : w.inputExists = true) (h2 : 0 < cs)
    (h3 : w.outputDirExists = true ∨ w.mkdirOk = true)
    (h4 : w.readResult = .ok header rows)
    (h5 : w.writeFailAt = some (j, e))
    (hj : j < (chunkList cs.toNat rows).length) :
    split_csv w inp out cs =
      { result := .error (.exception ("An error occurred while splitting the CSV file: " ++ e.msg))
        dirExistsAfter := true
        files := filesFor out w.clock header 0 ((chunkList cs.toNat rows).take j) } := by
  have hc1 : ¬ (w.inputExists = false) := by rw [h1]; simp
  have hc2 : ¬ (cs ≤ 0) := not_le.mpr h2
  have hc3 : ¬ (w.outputDirExists = false ∧ w.mkdirOk = false) := by
    rcases h3 with h | h <;> simp [h]
  unfold split_csv
  rw [if_neg hc1, if_neg hc2, if_neg hc3]
  simp only [h4, h5, Nat.sub_zero,
    writeChunks_fail_eq out w.clock header e (chunkList cs.toNat rows) 0 j
      (Nat.zero_le j) (by simpa using hj)]
  rfl

theorem loopResult_congr (p q : List OutFile × Option PyErr)
    (hsnd : p.2 = q.2) (hlen : p.1.length = q.1.length) :
    loopResult p = loopResult q := by
  unfold loopResult
  rw [hsnd, hlen]

theorem split_csv_ok_eq (w : World) (inp out : String) (cs : Int)
    (header : Row) (rows : List Row)
    (h1 : w.inputExists = true) (h2 : 0 < cs)
    (h3 : w.outputDirExists = true ∨ w.mkdirOk = true)
    (h4 : w.readResult = .ok header rows) :
    split_csv w inp out cs =
      { result := loopResult (writeChunks out w.clock w.writeFailAt header 0
          (chunkList cs.toNat rows))
        dirExistsAfter := true
        files := (writeChunks out w.clock w.writeFailAt header 0
          (chunkList cs.toNat rows)).1 } := by
  have hc3 : ¬ (w.outputDirExists = false ∧ w.mkdirOk = false) := by
    rcases h3 with h | h <;> simp [h]
  unfold split_csv
  rw [if_neg (by rw [h1]; simp), if_neg (not_le.mpr h2), if_neg hc3]
  simp only [h4]

theorem mem_split_files (w : World) (inp out : String) (cs : Int) (f : OutFile)
    (hf : f ∈ (split_csv w inp out cs).files) :
    ∃ j hdr rows, f = mkOutFile out (w.clock j) j hdr rows := by
  unfold split_csv at hf
  by_cases hb1 : w.inputExists = false
  · rw [if_pos hb1] at hf; simp at hf
  · rw [if_neg hb1] at hf
    by_cases hb2 : cs ≤ 0
    · rw [if_pos hb2] at hf; simp at hf
    · rw [if_neg hb2] at hf
      by_cases hb3 : w.outputDirExists = false ∧ w.mkdirOk = false
      · rw [if_pos hb3] at hf; simp at hf
      · rw [if_neg hb3] at hf
        cases hrr : w.readResult with
        | parserError m => simp only [hrr] at hf; simp at hf
        | otherError e => simp only [hrr] at hf; simp at hf
        | ok hdr rows =>
          simp only [hrr] at hf
          obtain ⟨j, rws, hj⟩ := mem_writeChunks out w.clock hdr w.writeFailAt
            (chunkList cs.toNat rows) 0 f hf
          exact ⟨j, hdr, rws, hj⟩

theorem chunkAux_mem_le (k : Nat) (_hk : 0 < k) :
    ∀ (fuel : Nat) (l : List Row), ∀ c ∈ chunkAux k fuel l, c.length ≤ k := by
  intro fuel
  induction fuel with
  | zero => intro l c hc; simp [chunkAux] at hc
  | succ n ih =>
    intro l c hc
    cases l with
    | nil => simp [chunkAux] at hc
    | cons x xs =>
      simp only [chunkAux, List.mem_cons] at hc
      rcases hc with hc | hc
      · subst hc
        simp only [List.length_cons, List.length_take]
        omega
      · exact ih _ _ hc

theorem split_csv_notfound_eq (w : World) (inp out : String) (cs : Int)
    (h : w.inputExists = false) :
    split_csv w inp out cs =
      { result := .error (.fileNotFoundError ("Input file not found: " ++ inp))
        dirExistsAfter := w.outputDirExists
        files := [] } := by
  unfold split_csv
  rw [if_pos h]

theorem split_csv_invalidarg_eq (w : World) (inp out : String) (cs : Int)
    (h1 : w.inputExists = true) (h2 : cs ≤ 0) :
    split_csv w inp out cs =
      { result := .error (.valueError "Chunk size must be a positive integer")
        dirExistsAfter := w.outputDirExists
        files := [] } := by
  unfold split_csv
  rw [if_neg (by rw [h1]; simp), if_pos h2]

theorem split_csv_mkdirfail_eq (w : World) (inp out : String) (cs : Int)
    (h1 : w.inputExists = true) (h2 : 0 < cs)
    (h3 : w.outputDirExists = false) (h4 : w.mkdirOk = false) :
    split_csv w inp out cs =
      { result := .error (.permissionError ("Permission denied when creating directory: " ++ out))
        dirExistsAfter := false
        files := [] } := by
  unfold split_csv
  rw [if_neg (by rw [h1]; simp), if_neg (not_le.mpr h2), if_pos ⟨h3, h4⟩]

theorem split_csv_parsefail_eq (w : World) (inp out : String) (cs : Int)
    (msg : String)
    (h1 : w.inputExists = true) (h2 : 0 < cs)
    (h3 : w.outputDirExists = true ∨ w.mkdirOk = true)
    (h4 : w.readResult = .parserError msg) :
    split_csv w inp out cs =
      { result := .error (.valueError "Error parsing CSV file. Please check if it's a valid CSV format.")
        dirExistsAfter := true
        files := [] } := by
  have hc3 : ¬ (w.outputDirExists = false ∧ w.mkdirOk = false) := by
    rcases h3 with h | h <;> simp [h]
  unfold split_csv
  rw [if_neg (by rw [h1]; simp), if_neg (not_le.mpr h2), if_neg hc3]
  simp only [h4]

theorem split_csv_readfail_eq (w : World) (inp out : String) (cs : Int)
    (e : PyErr)
    (h1 : w.inputExists = true) (h2 : 0 < cs)
    (h3 : w.outputDirExists = true ∨ w.mkdirOk = true)
    (h4 : w.readResult = .otherError e) :
    split_csv w inp out cs =
      { result := .error (.exception ("An error occurred while splitting the CSV file: " ++ e.msg))
        dirExistsAfter := true
        files := [] } := by
  have hc3 : ¬ (w.outputDirExists = false ∧ w.mkdirOk = false) := by
    rcases h3 with h | h <;> simp [h]
  unfold split_csv
  rw [if_neg (by rw [h1]; simp), if_neg (not_le.mpr h2), if_neg hc3]
  simp only [h4]

/-- C1: for every well-formed source (header plus data rows) and every
positive chunk size, in a run where the input exists, the output directory
can be provided and every write succeeds, the concatenation of the output
files' data rows — taken in the order the files are written, which is also
the order of their 1-based name indices — equals the source's data rows
exactly, each file carries the original header, and the function returns the
file count. -/
theorem claim_C1_concat_exact (w : World) (inp out : String) (cs : Int)
    (header : Row) (rows : List Row)
    (h1 : w.inputExists = true) (h2 : 0 < cs)
    (h3 : w.outputDirExists = true ∨ w.mkdirOk = true)
    (h4 : w.readResult = .ok header rows) (h5 : w.writeFailAt = none) :
    ((split_csv w inp out cs).files.map OutFile.rows).flatten = rows ∧
    (∀ f ∈ (split_csv w inp out cs).files, f.header = header) ∧
    (split_csv w inp out cs).result = .ok (split_csv w inp out cs).files.length := by
  rw [split_csv_success_eq w inp out cs header rows h1 h2 h3 h4 h5]
  have hk : 0 < cs.toNat := by omega
  refine ⟨?_, ?_, rfl⟩
  · show ((filesFor out w.clock header 0 (chunkList cs.toNat rows)).map OutFile.rows).flatten = rows
    rw [filesFor_rows]
    exact chunkList_flatten cs.toNat hk rows
  · intro f hf
    exact filesFor_header out w.clock header (chunkList cs.toNat rows) 0 f hf

/-- C1 witness: a concrete run with five data rows and chunk size two
satisfies every hypothesis of `claim_C1_concat_exact`, and the conclusion
holds there. -/
theorem claim_C1_witness :
    ((split_csv ⟨true, true, true,
        .ok ["a", "b"] [["1", "2"], ["3", "4"], ["5", "6"], ["7", "8"], ["9", "0"]],
        none, fun _ => ⟨2024, 1, 2, 3, 4, 5⟩⟩ "pws.csv" "data" 2).files.map
          OutFile.rows).flatten
        = [["1", "2"], ["3", "4"], ["5", "6"], ["7", "8"], ["9", "0"]] ∧
    (∀ f ∈ (split_csv ⟨true, true, true,
        .ok ["a", "b"] [["1", "2"], ["3", "4"], ["5", "6"], ["7", "8"], ["9", "0"]],
        none, fun _ => ⟨2024, 1, 2, 3, 4, 5⟩⟩ "pws.csv" "data" 2).files,
      f.header = ["a", "b"]) ∧
    (split_csv ⟨true, true, true,
        .ok ["a", "b"] [["1", "2"], ["3", "4"], ["5", "6"], ["7", "8"], ["9", "0"]],
        none, fun _ => ⟨2024, 1, 2, 3, 4, 5⟩⟩ "pws.csv" "data" 2).result
      = .ok (split_csv ⟨true, true, true,
        .ok ["a", "b"] [["1", "2"], ["3", "4"], ["5", "6"], ["7", "8"], ["9", "0"]],
        none, fun _ => ⟨2024, 1, 2, 3, 4, 5⟩⟩ "pws.csv" "data" 2).files.length :=
  claim_C1_concat_exact _ "pws.csv" "data" 2
    ["a", "b"] [["1", "2"], ["3", "4"], ["5", "6"], ["7", "8"], ["9", "0"]]
    rfl (by norm_num) (Or.inl rfl) rfl rfl

/-- C2: under the same success hypotheses, the number of files is exactly
the ceiling of the data-row count divided by the chunk size, batch `i`
(0-based) holds exactly the source rows from `i * chunk_size` up to
`min ((i+1) * chunk_size, total)`, every file holds at most `chunk_size`
rows, and every file except possibly the last holds exactly `chunk_size`
rows. -/
theorem claim_C2_batch_partition (w : World) (inp out : String) (cs : Int)
    (header : Row) (rows : List Row)
    (h1 : w.inputExists = true) (h2 : 0 < cs)
    (h3 : w.outputDirExists = true ∨ w.mkdirOk = true)
    (h4 : w.readResult = .ok header rows) (h5 : w.writeFailAt = none) :
    (split_csv w inp out cs).files.length
        = (rows.length + cs.toNat - 1) / cs.toNat ∧
    (∀ i, i < (split_csv w inp out cs).files.length →
      ((split_csv w inp out cs).files.map OutFile.rows)[i]?
        = some ((rows.drop (i * cs.toNat)).take cs.toNat)) ∧
    (∀ f ∈ (split_csv w inp out cs).files, f.rows.length ≤ cs.toNat) ∧
    (∀ i, i + 1 < (split_csv w inp out cs).files.length →
      ∃ r, ((split_csv w inp out cs).files.map OutFile.rows)[i]? = some r ∧
        r.length = cs.toNat) := by
  rw [split_csv_success_eq w inp out cs header rows h1 h2 h3 h4 h5]
  have hk : 0 < cs.toNat := by omega
  have hlen : (filesFor out w.clock header 0 (chunkList cs.toNat rows)).length
      = (rows.length + cs.toNat - 1) / cs.toNat := by
    rw [filesFor_length, chunkList_length cs.toNat hk]
  refine ⟨hlen, ?_, ?_, ?_⟩
  · intro i hi
    show ((filesFor out w.clock header 0 (chunkList cs.toNat rows)).map OutFile.rows)[i]? = _
    rw [filesFor_rows]
    apply chunkList_getElem cs.toNat hk
    rw [hlen] at hi
    have hb2 : (i + 1) * cs.toNat ≤ rows.length + cs.toNat - 1 :=
      (Nat.le_div_iff_mul_le hk).mp hi
    rw [Nat.succ_mul] at hb2
    omega
  · intro f hf
    have hmem : f.rows ∈ (filesFor out w.clock header 0
        (chunkList cs.toNat rows)).map OutFile.rows :=
      List.mem_map_of_mem OutFile.rows hf
    rw [filesFor_rows] at hmem
    exact chunkAux_mem_le cs.toNat hk rows.length rows f.rows hmem
  · intro i hi
    rw [hlen] at hi
    have hb2 : (i + 2) * cs.toNat ≤ rows.length + cs.toNat - 1 :=
      (Nat.le_div_iff_mul_le hk).mp hi
    have hexp : (i + 2) * cs.toNat = i * cs.toNat + 2 * cs.toNat := by ring
    rw [hexp] at hb2
    refine ⟨(rows.drop (i * cs.toNat)).take cs.toNat, ?_, ?_⟩
    · show ((filesFor out w.clock header 0 (chunkList cs.toNat rows)).map
          OutFile.rows)[i]? = _
      rw [filesFor_rows]
      apply chunkList_getElem cs.toNat hk
      omega
    · rw [List.length_take, List.length_drop]
      omega

set_option maxRecDepth 40000 in
/-- C2 witness: the scenario of the spec — 250 data rows, chunk size 100 —
runs through `claim_C2_batch_partition` and yields exactly three files, with
100, 100 and 50 rows respectively. -/
theorem claim_C2_witness :
    (0 : Int) < 100 ∧
    (split_csv ⟨true, true, true,
        .ok ["a", "b"] (List.replicate 250 ["x", "y"]),
        none, fun _ => ⟨2024, 1, 2, 3, 4, 5⟩⟩ "pws.csv" "data" 100).files.length = 3 ∧
    (split_csv ⟨true, true, true,
        .ok ["a", "b"] (List.replicate 250 ["x", "y"]),
        none, fun _ => ⟨2024, 1, 2, 3, 4, 5⟩⟩ "pws.csv" "data" 100).files.map
        (fun f => f.rows.length) = [100, 100, 50] := by
  refine ⟨by norm_num, ?_, by decide⟩
  have h := (claim_C2_batch_partition ⟨true, true, true,
      .ok ["a", "b"] (List.replicate 250 ["x", "y"]),
      none, fun _ => ⟨2024, 1, 2, 3, 4, 5⟩⟩ "pws.csv" "data" 100
      ["a", "b"] (List.replicate 250 ["x", "y"])
      rfl (by norm_num) (Or.inl rfl) rfl rfl).1
  rw [h]
  decide

/-- C7: a source with a header and zero data rows succeeds, returns 0 and
creates zero output files (for any positive chunk size and creatable output
directory). -/
theorem claim_C7_empty_source (w : World) (inp out : String) (cs : Int)
    (header : Row)
    (h1 : w.inputExists = true) (h2 : 0 < cs)
    (h3 : w.outputDirExists = true ∨ w.mkdirOk = true)
    (h4 : w.readResult = .ok header []) :
    (split_csv w inp out cs).result = .ok 0 ∧
    (split_csv w inp out cs).files = [] := by
  have h5 : w.writeFailAt = w.writeFailAt := rfl
  have hc3 : ¬ (w.outputDirExists = false ∧ w.mkdirOk = false) := by
    rcases h3 with h | h <;> simp [h]
  unfold split_csv
  rw [if_neg (by rw [h1]; simp), if_neg (not_le.mpr h2), if_neg hc3]
  simp only [h4]
  have hchunks : chunkList cs.toNat [] = [] := rfl
  rw [hchunks]
  cases hw : w.writeFailAt with
  | none => exact ⟨rfl, rfl⟩
  | some je => exact ⟨rfl, rfl⟩

/-- C7 witness: a concrete header-only run returns 0 and writes nothing. -/
theorem claim_C7_witness :
    (split_csv ⟨true, true, true, .ok ["a", "b"] [], none,
        fun _ => ⟨2024, 1, 2, 3, 4, 5⟩⟩ "pws.csv" "data" 100).result = .ok 0 ∧
    (split_csv ⟨true, true, true, .ok ["a", "b"] [], none,
        fun _ => ⟨2024, 1, 2, 3, 4, 5⟩⟩ "pws.csv" "data" 100).files = [] :=
  claim_C7_empty_source _ "pws.csv" "data" 100 ["a", "b"]
    rfl (by norm_num) (Or.inl rfl) rfl

/-- C8: a missing input file makes the run fail with the `FileNotFoundError`
(NotFound) before any side effect: the output directory is left exactly as it
was and no file is written. -/
theorem claim_C8_not_found (w : World) (inp out : String) (cs : Int)
    (h : w.inputExists = false) :
    (split_csv w inp out cs).result
        = .error (.fileNotFoundError ("Input file not found: " ++ inp)) ∧
    (split_csv w inp out cs).dirExistsAfter = w.outputDirExists ∧
    (split_csv w inp out cs).files = [] := by
  rw [split_csv_notfound_eq w inp out cs h]
  exact ⟨rfl, rfl, rfl⟩

/-- C8 witness: a concrete run on a non-existent input (and an absent output
directory) fails NotFound, creates no directory and writes no file. -/
theorem claim_C8_witness :
    (split_csv ⟨false, false, true, .ok ["a"] [], none,
        fun _ => ⟨2024, 1, 2, 3, 4, 5⟩⟩ "missing.csv" "data" 100).result
        = .error (.fileNotFoundError ("Input file not found: " ++ "missing.csv")) ∧
    (split_csv ⟨false, false, true, .ok ["a"] [], none,
        fun _ => ⟨2024, 1, 2, 3, 4, 5⟩⟩ "missing.csv" "data" 100).dirExistsAfter
        = false ∧
    (split_csv ⟨false, false, true, .ok ["a"] [], none,
        fun _ => ⟨2024, 1, 2, 3, 4, 5⟩⟩ "missing.csv" "data" 100).files = [] :=
  claim_C8_not_found ⟨false, false, true, .ok ["a"] [], none,
    fun _ => ⟨2024, 1, 2, 3, 4, 5⟩⟩ "missing.csv" "data" 100 rfl

/-- C10: once the input exists, the chunk size is positive and the output
directory either already exists or can be created, the directory exists on
disk when the run ends — whatever the read result (including a parse failure
or another read error), whatever the write failures, and in particular also
when zero files are produced. The directory step precedes the read in the
source, so no later failure can undo it. -/
theorem claim_C10_dir_created (w : World) (inp out : String) (cs : Int)
    (h1 : w.inputExists = true) (h2 : 0 < cs)
    (h3 : w.outputDirExists = true ∨ w.mkdirOk = true) :
    (split_csv w inp out cs).dirExistsAfter = true := by
  have hc3 : ¬ (w.outputDirExists = false ∧ w.mkdirOk = false) := by
    rcases h3 with h | h <;> simp [h]
  unfold split_csv
  rw [if_neg (by rw [h1]; simp), if_neg (not_le.mpr h2), if_neg hc3]
  cases hrr : w.readResult <;> rfl

/-- C10 witness: a run that fails while parsing (and would write nothing)
still ends with the output directory existing. -/
theorem claim_C10_witness :
    (split_csv ⟨true, false, true, .parserError "bad line", none,
        fun _ => ⟨2024, 1, 2, 3, 4, 5⟩⟩ "pws.csv" "data" 100).dirExistsAfter
      = true :=
  claim_C10_dir_created ⟨true, false, true, .parserError "bad line", none,
    fun _ => ⟨2024, 1, 2, 3, 4, 5⟩⟩ "pws.csv" "data" 100 rfl (by norm_num)
    (Or.inr rfl)

/-- C4 counterexample: with a non-existent input path and chunk_size = 0 the
run fails with NotFound, not InvalidArgument — the source checks the input
path (an I/O operation) before validating chunk_size, so the claim as stated
is false. -/
theorem claim_C4_counterexample :
    (split_csv ⟨false, false, true, .ok ["a"] [], none,
        fun _ => ⟨2024, 1, 2, 3, 4, 5⟩⟩ "missing.csv" "data" 0).result
      = .error (.fileNotFoundError "Input file not found: missing.csv") ∧
    (split_csv ⟨false, false, true, .ok ["a"] [], none,
        fun _ => ⟨2024, 1, 2, 3, 4, 5⟩⟩ "missing.csv" "data" 0).result
      ≠ .error (.valueError "Chunk size must be a positive integer") :=
  ⟨by decide, by decide⟩

/-- C4 (amended): when the input file exists, every chunk_size ≤ 0 fails
with the InvalidArgument `ValueError` before any output side effect — the
output directory is left as it was and no file is written; when the input
does not exist, the NotFound check fires first instead (so the input path is
stat-checked before the chunk_size validation, and InvalidArgument is not
raised). -/
theorem claim_C4_amended (w : World) (inp out : String) (cs : Int) :
    (w.inputExists = true → cs ≤ 0 →
      (split_csv w inp out cs).result
          = .error (.valueError "Chunk size must be a positive integer") ∧
      (split_csv w inp out cs).dirExistsAfter = w.outputDirExists ∧
      (split_csv w inp out cs).files = []) ∧
    (w.inputExists = false →
      (split_csv w inp out cs).result
          = .error (.fileNotFoundError ("Input file not found: " ++ inp))) := by
  constructor
  · intro h1 h2
    rw [split_csv_invalidarg_eq w inp out cs h1 h2]
    exact ⟨rfl, rfl, rfl⟩
  · intro h
    rw [split_csv_notfound_eq w inp out cs h]

/-- C4 witness: a concrete run with an existing input, an absent output
directory and chunk_size = -5 fails InvalidArgument, creates no directory
and writes nothing. -/
theorem claim_C4_witness :
    ((true : Bool) = true ∧ (-5 : Int) ≤ 0) ∧
    (split_csv ⟨true, false, true, .ok ["a"] [], none,
        fun _ => ⟨2024, 1, 2, 3, 4, 5⟩⟩ "pws.csv" "data" (-5)).result
      = .error (.valueError "Chunk size must be a positive integer") ∧
    (split_csv ⟨true, false, true, .ok ["a"] [], none,
        fun _ => ⟨2024, 1, 2, 3, 4, 5⟩⟩ "pws.csv" "data" (-5)).dirExistsAfter
      = false ∧
    (split_csv ⟨true, false, true, .ok ["a"] [], none,
        fun _ => ⟨2024, 1, 2, 3, 4, 5⟩⟩ "pws.csv" "data" (-5)).files = [] := by
  refine ⟨⟨rfl, by norm_num⟩, ?_⟩
  have h := (claim_C4_amended ⟨true, false, true, .ok ["a"] [], none,
    fun _ => ⟨2024, 1, 2, 3, 4, 5⟩⟩ "pws.csv" "data" (-5)).1 rfl (by norm_num)
  exact ⟨h.1, h.2.1, h.2.2⟩

/-- C3 counterexample: a run in which writing the first output file raises a
`PermissionError` does not fail with PermissionDenied: the source's generic
`except Exception` catches it first and re-raises it as a plain wrapped
`Exception` (the Unexpected kind), so the claim as stated is false. -/
theorem claim_C3_counterexample :
    (split_csv ⟨true, true, true, .ok ["a", "b"] [["1", "2"]],
        some (0, .permissionError "Permission denied: data/x.csv"),
        fun _ => ⟨2024, 1, 2, 3, 4, 5⟩⟩ "pws.csv" "data" 100).result
      = .error (.exception
          "An error occurred while splitting the CSV file: Permission denied: data/x.csv") ∧
    (split_csv ⟨true, true, true, .ok ["a", "b"] [["1", "2"]],
        some (0, .permissionError "Permission denied: data/x.csv"),
        fun _ => ⟨2024, 1, 2, 3, 4, 5⟩⟩ "pws.csv" "data" 100).result
      ≠ .error (.permissionError "Permission denied: data/x.csv") :=
  ⟨by decide, by decide⟩

/-- C3 (amended): when the output directory cannot be created the run fails
with the PermissionDenied `PermissionError` and writes nothing; when an
output file write raises, the failure is surfaced to the caller — not
swallowed — but re-classified as the wrapped Unexpected `Exception`
(preserving the original message), and the files written before the failing
write remain on disk. -/
theorem claim_C3_amended (w : World) (inp out : String) (cs : Int)
    (header : Row) (rows : List Row) (j : Nat) (e : PyErr) :
    (w.inputExists = true → 0 < cs → w.outputDirExists = false →
      w.mkdirOk = false →
      (split_csv w inp out cs).result
          = .error (.permissionError ("Permission denied when creating directory: " ++ out)) ∧
      (split_csv w inp out cs).files = []) ∧
    (w.inputExists = true → 0 < cs →
      (w.outputDirExists = true ∨ w.mkdirOk = true) →
      w.readResult = .ok header rows → w.writeFailAt = some (j, e) →
      j < (chunkList cs.toNat rows).length →
      (split_csv w inp out cs).result
          = .error (.exception ("An error occurred while splitting the CSV file: " ++ e.msg)) ∧
      (split_csv w inp out cs).files.map OutFile.rows
          = (chunkList cs.toNat rows).take j) := by
  constructor
  · intro h1 h2 h3 h4
    rw [split_csv_mkdirfail_eq w inp out cs h1 h2 h3 h4]
    exact ⟨rfl, rfl⟩
  · intro h1 h2 h3 h4 h5 hj
    rw [split_csv_writefail_eq w inp out cs header rows j e h1 h2 h3 h4 h5 hj]
    refine ⟨rfl, ?_⟩
    show (filesFor out w.clock header 0 ((chunkList cs.toNat rows).take j)).map
        OutFile.rows = _
    rw [filesFor_rows]

/-- C3 witness: both branches of `claim_C3_amended` hold on concrete runs —
one where `os.makedirs` is denied, one where the first file write raises a
`PermissionError`. -/
theorem claim_C3_witness :
    ((split_csv ⟨true, false, false, .ok ["a"] [], none,
        fun _ => ⟨2024, 1, 2, 3, 4, 5⟩⟩ "pws.csv" "data" 100).result
        = .error (.permissionError ("Permission denied when creating directory: " ++ "data")) ∧
      (split_csv ⟨true, false, false, .ok ["a"] [], none,
        fun _ => ⟨2024, 1, 2, 3, 4, 5⟩⟩ "pws.csv" "data" 100).files = []) ∧
    ((split_csv ⟨true, true, true, .ok ["a", "b"] [["1", "2"]],
        some (0, .permissionError "Permission denied: data/x.csv"),
        fun _ => ⟨2024, 1, 2, 3, 4, 5⟩⟩ "pws.csv" "data" 100).result
        = .error (.exception ("An error occurred while splitting the CSV file: "
            ++ (PyErr.permissionError "Permission denied: data/x.csv").msg)) ∧
      (split_csv ⟨true, true, true, .ok ["a", "b"] [["1", "2"]],
        some (0, .permissionError "Permission denied: data/x.csv"),
        fun _ => ⟨2024, 1, 2, 3, 4, 5⟩⟩ "pws.csv" "data" 100).files.map OutFile.rows
        = (chunkList (100 : Int).toNat [["1", "2"]]).take 0) := by
  constructor
  · exact (claim_C3_amended ⟨true, false, false, .ok ["a"] [], none,
      fun _ => ⟨2024, 1, 2, 3, 4, 5⟩⟩ "pws.csv" "data" 100 ["a"] [] 0
      (.exception "x")).1 rfl (by norm_num) rfl rfl
  · exact (claim_C3_amended ⟨true, true, true, .ok ["a", "b"] [["1", "2"]],
      some (0, .permissionError "Permission denied: data/x.csv"),
      fun _ => ⟨2024, 1, 2, 3, 4, 5⟩⟩ "pws.csv" "data" 100 ["a", "b"] [["1", "2"]] 0
      (.permissionError "Permission denied: data/x.csv")).2 rfl (by norm_num)
      (Or.inl rfl) rfl rfl (by decide)

/-- C6: a source that fails to parse makes the run fail with the dedicated
`ValueError` carrying the fixed user-actionable message; that surfaced error
is not the raw low-level `ParserError`, and it is distinct from every error
value the other branches of the function can produce (the NotFound,
InvalidArgument, PermissionDenied and Unexpected errors). -/
theorem claim_C6_parse_error (w : World) (inp out : String) (cs : Int)
    (msg : String)
    (h1 : w.inputExists = true) (h2 : 0 < cs)
    (h3 : w.outputDirExists = true ∨ w.mkdirOk = true)
    (h4 : w.readResult = .parserError msg) :
    (split_csv w inp out cs).result
        = .error (.valueError "Error parsing CSV file. Please check if it's a valid CSV format.") ∧
    (∀ m, (split_csv w inp out cs).result ≠ .error (.parserError m)) ∧
    (split_csv w inp out cs).result
        ≠ .error (.valueError "Chunk size must be a positive integer") ∧
    (∀ m, (split_csv w inp out cs).result ≠ .error (.fileNotFoundError m)) ∧
    (∀ m, (split_csv w inp out cs).result ≠ .error (.permissionError m)) ∧
    (∀ m, (split_csv w inp out cs).result ≠ .error (.exception m)) := by
  rw [split_csv_parsefail_eq w inp out cs msg h1 h2 h3 h4]
  refine ⟨rfl, ?_, by decide, ?_, ?_, ?_⟩
  · intro m hcontra; simp at hcontra
  · intro m hcontra; simp at hcontra
  · intro m hcontra; simp at hcontra
  · intro m hcontra; simp at hcontra

/-- C6 witness: a concrete run whose read raises `ParserError` satisfies the
hypotheses of `claim_C6_parse_error`; the surfaced error is the dedicated
parse `ValueError`. -/
theorem claim_C6_witness :
    (0 : Int) < 100 ∧
    (split_csv ⟨true, true, true, .parserError "Expected 2 fields in line 3, saw 4",
        none, fun _ => ⟨2024, 1, 2, 3, 4, 5⟩⟩ "pws.csv" "data" 100).result
      = .error (.valueError "Error parsing CSV file. Please check if it's a valid CSV format.") :=
  ⟨by norm_num,
    (claim_C6_parse_error ⟨true, true, true,
      .parserError "Expected 2 fields in line 3, saw 4", none,
      fun _ => ⟨2024, 1, 2, 3, 4, 5⟩⟩ "pws.csv" "data" 100
      "Expected 2 fields in line 3, saw 4" rfl (by norm_num) (Or.inl rfl) rfl).1⟩

/-- C5: every output file of any run (for an output directory that is
non-empty and not slash-terminated) is named
`output_dir ++ "/" ++ YYYY-MM-DD--HH-MM-SS--NN.csv`, where the timestamp is
the clock value sampled at that file's own write step (not once per run) and
`NN` is the file's 1-based batch index zero-padded to at least two digits. -/
theorem claim_C5_filenames (w : World) (inp out : String) (cs : Int)
    (h1 : out ≠ "") (h2 : endsWithSlash out = false) :
    ∀ f ∈ (split_csv w inp out cs).files,
      ∃ i, f.name = out ++ "/"
          ++ (fmtTimestamp (w.clock i) ++ "--" ++ zfill 2 (i + 1) ++ ".csv") ∧
        f.timestamp = w.clock i ∧ f.index = i + 1 := by
  intro f hf
  obtain ⟨j, hdr, rws, hj⟩ := mem_split_files w inp out cs f hf
  subst hj
  refine ⟨j, ?_, rfl, rfl⟩
  simp only [mkOutFile]
  exact pathJoin_eq_concat out _ (startsWithSlash_filename (w.clock j) (j + 1)) h1 h2

/-- C5 witness: in a concrete one-file run the single output file carries
the expected slash-joined name, per-write timestamp and 1-based padded
index. -/
theorem claim_C5_witness :
    ("data" : String) ≠ "" ∧ endsWithSlash "data" = false ∧
    ∃ i, (mkOutFile "data" ⟨2024, 1, 2, 3, 4, 5⟩ 0 ["a"] [["1"]]).name
        = "data" ++ "/"
          ++ (fmtTimestamp ((fun _ => (⟨2024, 1, 2, 3, 4, 5⟩ : Timestamp)) i)
            ++ "--" ++ zfill 2 (i + 1) ++ ".csv") ∧
      (mkOutFile "data" ⟨2024, 1, 2, 3, 4, 5⟩ 0 ["a"] [["1"]]).timestamp
        = (fun _ => (⟨2024, 1, 2, 3, 4, 5⟩ : Timestamp)) i ∧
      (mkOutFile "data" ⟨2024, 1, 2, 3, 4, 5⟩ 0 ["a"] [["1"]]).index = i + 1 := by
  refine ⟨by decide, by decide, ?_⟩
  exact claim_C5_filenames ⟨true, true, true, .ok ["a"] [["1"]], none,
    fun _ => ⟨2024, 1, 2, 3, 4, 5⟩⟩ "pws.csv" "data" 100 (by decide) (by decide)
    (mkOutFile "data" ⟨2024, 1, 2, 3, 4, 5⟩ 0 ["a"] [["1"]]) (by decide)

/-- C9: data placement is a pure function of the source content and the
chunk size: replacing the wall clock of a run by any other clock leaves the
returned value, the directory effect, and every file's batch index, header
and rows unchanged — only the timestamp component (and hence the name) of
each file can differ. -/
theorem claim_C9_placement_deterministic (w : World) (c₂ : Nat → Timestamp)
    (inp out : String) (cs : Int) :
    (split_csv (w.withClock c₂) inp out cs).result
        = (split_csv w inp out cs).result ∧
    (split_csv (w.withClock c₂) inp out cs).dirExistsAfter
        = (split_csv w inp out cs).dirExistsAfter ∧
    (split_csv (w.withClock c₂) inp out cs).files.map placement
        = (split_csv w inp out cs).files.map placement := by
  by_cases hb1 : w.inputExists = false
  · rw [split_csv_notfound_eq w inp out cs hb1,
      split_csv_notfound_eq (w.withClock c₂) inp out cs hb1]
    exact ⟨rfl, rfl, rfl⟩
  · have h1' : w.inputExists = true := by revert hb1; cases w.inputExists <;> simp
    by_cases hb2 : cs ≤ 0
    · rw [split_csv_invalidarg_eq w inp out cs h1' hb2,
        split_csv_invalidarg_eq (w.withClock c₂) inp out cs h1' hb2]
      exact ⟨rfl, rfl, rfl⟩
    · have h2' : 0 < cs := not_le.mp hb2
      by_cases hb3 : w.outputDirExists = false ∧ w.mkdirOk = false
      · rw [split_csv_mkdirfail_eq w inp out cs h1' h2' hb3.1 hb3.2,
          split_csv_mkdirfail_eq (w.withClock c₂) inp out cs h1' h2' hb3.1 hb3.2]
        exact ⟨rfl, rfl, rfl⟩
      · have h3' : w.outputDirExists = true ∨ w.mkdirOk = true := by
          revert hb3; cases w.outputDirExists <;> cases w.mkdirOk <;> simp
        cases hrr : w.readResult with
        | parserError m =>
          rw [split_csv_parsefail_eq w inp out cs m h1' h2' h3' hrr,
            split_csv_parsefail_eq (w.withClock c₂) inp out cs m h1' h2' h3' hrr]
          exact ⟨rfl, rfl, rfl⟩
        | otherError e =>
          rw [split_csv_readfail_eq w inp out cs e h1' h2' h3' hrr,
            split_csv_readfail_eq (w.withClock c₂) inp out cs e h1' h2' h3' hrr]
          exact ⟨rfl, rfl, rfl⟩
        | ok hdr rows =>
          rw [split_csv_ok_eq w inp out cs hdr rows h1' h2' h3' hrr,
            split_csv_ok_eq (w.withClock c₂) inp out cs hdr rows h1' h2' h3' hrr]
          have hpl := writeChunks_placement out c₂ w.clock hdr w.writeFailAt
            (chunkList cs.toNat rows) 0
          have hlen : (writeChunks out c₂ w.writeFailAt hdr 0
                (chunkList cs.toNat rows)).1.length
              = (writeChunks out w.clock w.writeFailAt hdr 0
                (chunkList cs.toNat rows)).1.length := by
            have hl := congrArg List.length hpl.1
            simpa using hl
          refine ⟨?_, rfl, ?_⟩
          · show loopResult (writeChunks out c₂ w.writeFailAt hdr 0
                (chunkList cs.toNat rows))
              = loopResult (writeChunks out w.clock w.writeFailAt hdr 0
                (chunkList cs.toNat rows))
            exact loopResult_congr _ _ hpl.2 hlen
          · show (writeChunks out c₂ w.writeFailAt hdr 0
                (chunkList cs.toNat rows)).1.map placement = _
            exact hpl.1

end CsvSplitter
